import Mathlib

/-!
Verification of the wraparound quadrature-encoder counter of this
repository (`src/qei_oversize.rs`).  The struct `QeiManager` extends a
16-bit hardware counter into a signed 64-bit cumulative position by
comparing each new raw sample with the previously stored one and deciding,
via the half-range threshold, whether the move was a plain step or a wrap.

The embedding below follows the Rust source line by line: `u16` values are
natural numbers kept below `2^16` by hypotheses, the `i64` accumulator is
an unbounded `Int` (each accepted step changes it by less than `2^15`, see
the safety theorem), and the early `Err` return of `update` is an
`Except.error` that leaves the state unchanged.
-/

/-- `const THRESHOLD: u16 = 32768` from `qei_oversize.rs`. -/
def THRESHOLD : Nat := 32768

/-- The error enum `SamplingError` of `qei_oversize.rs`. -/
inductive SamplingError where
  | SampleTooFar
deriving DecidableEq

/-- The struct `QeiManager`: `counter: i64` modelled as `Int`,
`previous_count: u16` modelled as a natural number kept below `2^16`. -/
structure QeiManager where
  counter : Int
  previous_count : Nat
deriving DecidableEq

/-- `QeiManager::new()`: both fields zero. -/
def QeiManager.new : QeiManager := { counter := 0, previous_count := 0 }

/-- `QeiManager::update`: the branch structure of the source, verbatim.
Every `u16` subtraction is evaluated only under the guard that makes it
meaningful, exactly as in the Rust code. -/
def QeiManager.update (q : QeiManager) (current_count : Nat) :
    Except SamplingError QeiManager :=
  if current_count = q.previous_count then
    Except.ok q
  else if q.previous_count < current_count then
    if current_count - q.previous_count < THRESHOLD then
      Except.ok { counter := q.counter + ((current_count - q.previous_count : Nat) : Int),
                  previous_count := current_count }
    else if THRESHOLD < current_count - q.previous_count then
      Except.ok { counter := q.counter -
                    ((65535 - current_count + q.previous_count + 1 : Nat) : Int),
                  previous_count := current_count }
    else
      Except.error SamplingError.SampleTooFar
  else
    if q.previous_count - current_count < THRESHOLD then
      Except.ok { counter := q.counter - ((q.previous_count - current_count : Nat) : Int),
                  previous_count := current_count }
    else if THRESHOLD < q.previous_count - current_count then
      Except.ok { counter := q.counter +
                    ((65535 - q.previous_count + current_count + 1 : Nat) : Int),
                  previous_count := current_count }
    else
      Except.error SamplingError.SampleTooFar

/-- `QeiManager::sample`, which forwards to `update`. -/
def QeiManager.sample (q : QeiManager) (count : Nat) : Except SamplingError QeiManager :=
  q.update count

/-- `QeiManager::sample_unwrap`: `self.update(count).unwrap()`.  `none`
models the panic raised by `unwrap` on an `Err` result. -/
def QeiManager.sample_unwrap (q : QeiManager) (count : Nat) : Option QeiManager :=
  match q.update count with
  | Except.ok q' => some q'
  | Except.error _ => none

/-- `QeiManager::count`: returns the internal counter. -/
def QeiManager.count (q : QeiManager) : Int := q.counter

/-- `QeiManager::reset`: zeroes `counter`, touches nothing else. -/
def QeiManager.reset (q : QeiManager) : QeiManager :=
  { q with counter := 0 }

/-- The state held by the caller after a `sample` call: on `Err` the early
return leaves `self` unchanged. -/
def QeiManager.step (q : QeiManager) (count : Nat) : QeiManager :=
  match q.update count with
  | Except.ok q' => q'
  | Except.error _ => q

/-- Signed circular displacement from `a` to `b`: the representative of
`b - a` modulo `2^16` lying in the interval `[-32768, 32768)`. -/
def signedDisp (a b : Nat) : Int :=
  if (b + 65536 - a) % 65536 < 32768 then ((b + 65536 - a) % 65536 : Nat)
  else ((b + 65536 - a) % 65536 : Nat) - 65536

/-- States reachable from `QeiManager::new` through arbitrary `sample`
calls (successful or erroring) and `reset` calls. -/
inductive Reachable : QeiManager → Prop where
  | init : Reachable QeiManager.new
  | samp : ∀ (q : QeiManager) (raw : Nat), raw < 65536 → Reachable q →
      Reachable (q.step raw)
  | rst : ∀ (q : QeiManager), Reachable q → Reachable q.reset

/-- States reachable from `QeiManager::new` through `sample` calls alone. -/
inductive SampleReachable : QeiManager → Prop where
  | init : SampleReachable QeiManager.new
  | samp : ∀ (q : QeiManager) (raw : Nat), raw < 65536 → SampleReachable q →
      SampleReachable (q.step raw)

/-- Core lemma: when the circular displacement is not the ambiguous
midpoint, `update` succeeds and adds the signed displacement. -/
theorem QeiManager.update_ok_of_disp (c : Int) (a b : Nat) (ha : a < 65536) (hb : b < 65536)
    (hd : (b + 65536 - a) % 65536 ≠ 32768) :
    QeiManager.update ⟨c, a⟩ b = Except.ok ⟨c + signedDisp a b, b⟩ := by
  simp only [QeiManager.update, signedDisp, THRESHOLD]
  split_ifs <;>
    first
      | (exfalso; omega)
      | (simp only [Except.ok.injEq, QeiManager.mk.injEq, and_true]; omega)

/-- Core lemma: at the ambiguous midpoint, `update` returns `SampleTooFar`. -/
theorem QeiManager.update_err_of_mid (c : Int) (a b : Nat) (ha : a < 65536) (hb : b < 65536)
    (hd : (b + 65536 - a) % 65536 = 32768) :
    QeiManager.update ⟨c, a⟩ b = Except.error SamplingError.SampleTooFar := by
  simp only [QeiManager.update, THRESHOLD]
  split_ifs <;> first | rfl | (exfalso; omega)

/-- On success the caller sees the new state. -/
theorem QeiManager.step_eq_of_ok {q q' : QeiManager} {raw : Nat}
    (h : q.update raw = Except.ok q') : q.step raw = q' := by
  simp [QeiManager.step, h]

/-- On error the caller keeps the old state. -/
theorem QeiManager.step_eq_of_err {q : QeiManager} {raw : Nat} {e : SamplingError}
    (h : q.update raw = Except.error e) : q.step raw = q := by
  simp [QeiManager.step, h]

/-- A successful `update` stores the raw sample as `previous_count`. -/
theorem QeiManager.previous_of_ok {q q' : QeiManager} {raw : Nat}
    (h : q.update raw = Except.ok q') : q'.previous_count = raw := by
  simp only [QeiManager.update, THRESHOLD] at h
  split_ifs at h <;> cases h <;> simp_all

/-- The signed circular displacement lies strictly inside the half range
when the midpoint is excluded. -/
theorem signedDisp_bounds (a b : Nat) (hd : (b + 65536 - a) % 65536 ≠ 32768) :
    -32768 < signedDisp a b ∧ signedDisp a b < 32768 := by
  simp only [signedDisp]
  split_ifs <;> constructor <;> omega

/-- The signed circular displacement is congruent to `b - a` mod `2^16`. -/
theorem signedDisp_congr (a b : Nat) (ha : a < 65536) (hb : b < 65536) :
    (signedDisp a b - ((b : Int) - (a : Int))) % 65536 = 0 := by
  simp only [signedDisp]
  split_ifs <;> omega

/-- Antisymmetry of the signed circular displacement away from the midpoint. -/
theorem signedDisp_neg (a b : Nat) (ha : a < 65536) (hb : b < 65536)
    (hd : (b + 65536 - a) % 65536 ≠ 32768) :
    signedDisp b a = - signedDisp a b := by
  simp only [signedDisp]
  split_ifs <;> omega

/-- Adding the signed displacement preserves the mod-`2^16` shadow. -/
theorem signedDisp_mod (a b : Nat) (ha : a < 65536) (hb : b < 65536) (c : Int)
    (hc : c % 65536 = (a : Int)) : (c + signedDisp a b) % 65536 = (b : Int) := by
  simp only [signedDisp]
  split_ifs <;> omega

/-- Strengthened invariant for sample-only reachability: `previous_count`
is a `u16` value and `counter` reduced mod `2^16` equals it. -/
theorem sampleReachable_inv (q : QeiManager) (h : SampleReachable q) :
    q.previous_count < 65536 ∧ q.counter % 65536 = (q.previous_count : Int) := by
  induction h with
  | init => exact ⟨by decide, by decide⟩
  | samp q raw hraw hq ih =>
    obtain ⟨hp, hc⟩ := ih
    by_cases hmid : (raw + 65536 - q.previous_count) % 65536 = 32768
    · have herr : q.update raw = Except.error SamplingError.SampleTooFar :=
        QeiManager.update_err_of_mid q.counter q.previous_count raw hp hraw hmid
      rw [QeiManager.step_eq_of_err herr]
      exact ⟨hp, hc⟩
    · have hok : q.update raw =
          Except.ok ⟨q.counter + signedDisp q.previous_count raw, raw⟩ :=
        QeiManager.update_ok_of_disp q.counter q.previous_count raw hp hraw hmid
      rw [QeiManager.step_eq_of_ok hok]
      exact ⟨hraw, signedDisp_mod q.previous_count raw hp hraw q.counter hc⟩

example : QeiManager.new.update 5 = Except.ok ⟨5, 5⟩ := by rfl
example : QeiManager.new.step 65489 = ⟨-47, 65489⟩ := by decide
example : (QeiManager.mk 5 5).update 65532 = Except.ok ⟨-4, 65532⟩ := by rfl
example : QeiManager.new.update 32768 = Except.error SamplingError.SampleTooFar := by rfl
example : signedDisp 65489 65000 = -489 := by decide
example : signedDisp 5 65532 = -9 := by decide

/-- C1: from a state with `previous_count = a` and `counter = c`, when the
circular displacement from `a` to `b` avoids the ambiguous midpoint `2^15`,
`sample(b)` returns `Ok`, afterwards `count()` is `c + d` and
`previous_count` is `b`, where `d = signedDisp a b` is in `(-2^15, 2^15)`
and congruent to `b - a` mod `2^16`. -/
theorem sample_ok_adds_signedDisp (c : Int) (a b : Nat) (ha : a < 65536) (hb : b < 65536)
    (hd : (b + 65536 - a) % 65536 ≠ 32768) :
    (QeiManager.mk c a).sample b = Except.ok ⟨c + signedDisp a b, b⟩ ∧
    ((QeiManager.mk c a).step b).count = c + signedDisp a b ∧
    ((QeiManager.mk c a).step b).previous_count = b ∧
    -32768 < signedDisp a b ∧ signedDisp a b < 32768 ∧
    (signedDisp a b - ((b : Int) - (a : Int))) % 65536 = 0 := by
  have hok := QeiManager.update_ok_of_disp c a b ha hb hd
  have hstep := QeiManager.step_eq_of_ok hok
  obtain ⟨h1, h2⟩ := signedDisp_bounds a b hd
  exact ⟨hok, by rw [hstep]; rfl, by rw [hstep], h1, h2, signedDisp_congr a b ha hb⟩

/-- Witness for C1 at `a = 65489`, `b = 65000`, `c = 0`. -/
theorem sample_ok_adds_signedDisp_witness :
    (QeiManager.mk 0 65489).sample 65000 = Except.ok ⟨0 + signedDisp 65489 65000, 65000⟩ ∧
    ((QeiManager.mk 0 65489).step 65000).count = 0 + signedDisp 65489 65000 ∧
    ((QeiManager.mk 0 65489).step 65000).previous_count = 65000 ∧
    -32768 < signedDisp 65489 65000 ∧ signedDisp 65489 65000 < 32768 ∧
    (signedDisp 65489 65000 - ((65000 : Int) - ((65489 : Nat) : Int))) % 65536 = 0 :=
  sample_ok_adds_signedDisp 0 65489 65000 (by decide) (by decide) (by decide)

/-- C2: when the raw sample sits exactly `2^15` away (circularly) from
`previous_count`, `sample` returns `Err(SampleTooFar)` and both fields are
unchanged. -/
theorem sample_mid_errors (c : Int) (p raw : Nat) (hp : p < 65536) (hr : raw < 65536)
    (hd : (raw + 65536 - p) % 65536 = 32768) :
    (QeiManager.mk c p).sample raw = Except.error SamplingError.SampleTooFar ∧
    (QeiManager.mk c p).step raw = QeiManager.mk c p ∧
    ((QeiManager.mk c p).step raw).count = c ∧
    ((QeiManager.mk c p).step raw).previous_count = p := by
  have herr := QeiManager.update_err_of_mid c p raw hp hr hd
  have hstep := QeiManager.step_eq_of_err herr
  exact ⟨herr, hstep, by rw [hstep]; rfl, by rw [hstep]⟩

/-- Witness for C2 at `p = 1`, `raw = 32769`, `c = 7`. -/
theorem sample_mid_errors_witness :
    (QeiManager.mk 7 1).sample 32769 = Except.error SamplingError.SampleTooFar ∧
    (QeiManager.mk 7 1).step 32769 = QeiManager.mk 7 1 ∧
    ((QeiManager.mk 7 1).step 32769).count = 7 ∧
    ((QeiManager.mk 7 1).step 32769).previous_count = 1 :=
  sample_mid_errors 7 1 32769 (by decide) (by decide) (by decide)

/-- C3 counterexample: the state reached by `new` → `sample(5)` → `reset`
is reachable through sample and reset calls, yet its counter mod `2^16`
(namely `0`) differs from its `previous_count` (namely `5`): `reset`
zeroes the counter while keeping `previous_count`. -/
theorem reset_breaks_mod_invariant :
    Reachable ((QeiManager.new.step 5).reset) ∧
    ((QeiManager.new.step 5).reset).counter % 65536 ≠
      (((QeiManager.new.step 5).reset).previous_count : Int) :=
  ⟨Reachable.rst _ (Reachable.samp _ 5 (by decide) Reachable.init), by decide⟩

/-- C3 (amended): in every state reachable from `new` by sample calls
alone (successful or erroring, but with no intervening `reset`), the
counter reduced mod `2^16`, taken as unsigned, equals `previous_count`. -/
theorem sampleReachable_mod_invariant (q : QeiManager) (h : SampleReachable q) :
    q.counter % 65536 = (q.previous_count : Int) :=
  (sampleReachable_inv q h).2

/-- Witness for the amended C3 at the state reached by one `sample(5)`. -/
theorem sampleReachable_mod_invariant_witness :
    (QeiManager.new.step 5).counter % 65536 = ((QeiManager.new.step 5).previous_count : Int) :=
  sampleReachable_mod_invariant (QeiManager.new.step 5)
    (SampleReachable.samp QeiManager.new 5 (by decide) SampleReachable.init)

/-- C4: on `u16`-valued states and inputs, `update` always returns (either
the error, leaving the state unchanged, or a success whose counter moved
by less than `2^15`, so a bounded run cannot overflow an `i64`), and every
`u16` subtraction or addition evaluated on the taken branch stays within
`u16` range. -/
theorem update_total_and_in_range (q : QeiManager) (raw : Nat)
    (hp : q.previous_count < 65536) (hr : raw < 65536) :
    ((q.update raw = Except.error SamplingError.SampleTooFar ∧ q.step raw = q) ∨
      (∃ q' : QeiManager, q.update raw = Except.ok q' ∧
        (q'.counter - q.counter).natAbs < 32768)) ∧
    (q.previous_count < raw → raw - q.previous_count ≤ 65535) ∧
    (raw < q.previous_count → q.previous_count - raw ≤ 65535) ∧
    (q.previous_count < raw → THRESHOLD < raw - q.previous_count →
      raw ≤ 65535 ∧ 65535 - raw + q.previous_count + 1 ≤ 65535) ∧
    (raw < q.previous_count → THRESHOLD < q.previous_count - raw →
      q.previous_count ≤ 65535 ∧ 65535 - q.previous_count + raw + 1 ≤ 65535) := by
  refine ⟨?_, by omega, by omega, ?_, ?_⟩
  · by_cases hmid : (raw + 65536 - q.previous_count) % 65536 = 32768
    · have herr : q.update raw = Except.error SamplingError.SampleTooFar :=
        QeiManager.update_err_of_mid q.counter q.previous_count raw hp hr hmid
      exact Or.inl ⟨herr, QeiManager.step_eq_of_err herr⟩
    · have hok : q.update raw =
          Except.ok ⟨q.counter + signedDisp q.previous_count raw, raw⟩ :=
        QeiManager.update_ok_of_disp q.counter q.previous_count raw hp hr hmid
      obtain ⟨hlo, hhi⟩ := signedDisp_bounds q.previous_count raw hmid
      refine Or.inr ⟨_, hok, ?_⟩
      show (q.counter + signedDisp q.previous_count raw - q.counter).natAbs < 32768
      omega
  · intro h1 h2
    simp only [THRESHOLD] at h2
    exact ⟨by omega, by omega⟩
  · intro h1 h2
    simp only [THRESHOLD] at h2
    exact ⟨by omega, by omega⟩

/-- Witness for C4 at the fresh state and `raw = 1`. -/
theorem update_total_and_in_range_witness :
    ((QeiManager.new.update 1 = Except.error SamplingError.SampleTooFar ∧
        QeiManager.new.step 1 = QeiManager.new) ∨
      (∃ q' : QeiManager, QeiManager.new.update 1 = Except.ok q' ∧
        (q'.counter - QeiManager.new.counter).natAbs < 32768)) ∧
    (QeiManager.new.previous_count < 1 → 1 - QeiManager.new.previous_count ≤ 65535) ∧
    (1 < QeiManager.new.previous_count → QeiManager.new.previous_count - 1 ≤ 65535) ∧
    (QeiManager.new.previous_count < 1 → THRESHOLD < 1 - QeiManager.new.previous_count →
      1 ≤ 65535 ∧ 65535 - 1 + QeiManager.new.previous_count + 1 ≤ 65535) ∧
    (1 < QeiManager.new.previous_count → THRESHOLD < QeiManager.new.previous_count - 1 →
      QeiManager.new.previous_count ≤ 65535 ∧
      65535 - QeiManager.new.previous_count + 1 + 1 ≤ 65535) :=
  update_total_and_in_range QeiManager.new 1 (by decide) (by decide)

/-- C5: `reset` zeroes the counter, so `count()` is `0` afterwards, and
leaves `previous_count` exactly as it was; no other field exists. -/
theorem reset_zeroes_counter_only (q : QeiManager) :
    q.reset.counter = 0 ∧ q.reset.count = 0 ∧ q.reset.previous_count = q.previous_count :=
  ⟨rfl, rfl, rfl⟩

/-- C6: the `going_back` scenario: from `new`, sampling 65489, 65000,
63000, 62999 succeeds at every step and yields counts -47, -536, -2536,
-2537. -/
theorem going_back_scenario :
    QeiManager.new.update 65489 = Except.ok ⟨-47, 65489⟩ ∧
    (QeiManager.mk (-47) 65489).update 65000 = Except.ok ⟨-536, 65000⟩ ∧
    (QeiManager.mk (-536) 65000).update 63000 = Except.ok ⟨-2536, 63000⟩ ∧
    (QeiManager.mk (-2536) 63000).update 62999 = Except.ok ⟨-2537, 62999⟩ ∧
    ((QeiManager.new.step 65489).step 65000).count = -536 ∧
    (((QeiManager.new.step 65489).step 65000).step 63000).count = -2536 ∧
    ((((QeiManager.new.step 65489).step 65000).step 63000).step 62999).count = -2537 :=
  ⟨rfl, rfl, rfl, rfl, rfl, rfl, rfl⟩

/-- C7: if `sample(x)` succeeds, an immediately repeated `sample(x)`
returns `Ok` and leaves the state unchanged; sampling the stored
`previous_count` is the identity on any state. -/
theorem sample_twice_noop (q q' : QeiManager) (x : Nat) (h : q.sample x = Except.ok q') :
    q'.sample x = Except.ok q' ∧ q.sample q.previous_count = Except.ok q := by
  have hprev : q'.previous_count = x := QeiManager.previous_of_ok h
  constructor
  · simp [QeiManager.sample, QeiManager.update, hprev]
  · simp [QeiManager.sample, QeiManager.update]

/-- Witness for C7 at `q = new`, `x = 5`. -/
theorem sample_twice_noop_witness :
    (QeiManager.mk 5 5).sample 5 = Except.ok (QeiManager.mk 5 5) ∧
    QeiManager.new.sample QeiManager.new.previous_count = Except.ok QeiManager.new :=
  sample_twice_noop QeiManager.new (QeiManager.mk 5 5) 5 (by rfl)

/-- C9: away from the midpoint, sampling `b` from `previous_count = a` and
sampling `a` from `previous_count = b` move the counter by exactly
opposite amounts, so a `b` then `a` round trip restores the state. -/
theorem sample_antisymmetric (c c' : Int) (a b : Nat) (ha : a < 65536) (hb : b < 65536)
    (hd : (b + 65536 - a) % 65536 ≠ 32768) :
    (QeiManager.mk c a).update b = Except.ok ⟨c + signedDisp a b, b⟩ ∧
    (QeiManager.mk c' b).update a = Except.ok ⟨c' - signedDisp a b, a⟩ ∧
    ((QeiManager.mk c a).step b).step a = QeiManager.mk c a := by
  have hd' : (a + 65536 - b) % 65536 ≠ 32768 := by omega
  have h1 := QeiManager.update_ok_of_disp c a b ha hb hd
  have hneg := signedDisp_neg a b ha hb hd
  have h2 := QeiManager.update_ok_of_disp c' b a hb ha hd'
  rw [hneg] at h2
  refine ⟨h1, ?_, ?_⟩
  · rw [h2]
    simp only [Except.ok.injEq, QeiManager.mk.injEq, and_true]
    omega
  · rw [QeiManager.step_eq_of_ok h1]
    have h3 := QeiManager.update_ok_of_disp (c + signedDisp a b) b a hb ha hd'
    rw [hneg] at h3
    rw [QeiManager.step_eq_of_ok h3]
    simp only [QeiManager.mk.injEq, and_true]
    omega

/-- Witness for C9 at `a = 0`, `b = 5`, both counters `0`. -/
theorem sample_antisymmetric_witness :
    (QeiManager.mk 0 0).update 5 = Except.ok ⟨0 + signedDisp 0 5, 5⟩ ∧
    (QeiManager.mk 0 5).update 0 = Except.ok ⟨0 - signedDisp 0 5, 0⟩ ∧
    ((QeiManager.mk 0 0).step 5).step 0 = QeiManager.mk 0 0 :=
  sample_antisymmetric 0 0 0 5 (by decide) (by decide) (by decide)

/-- C10: `sample_unwrap` hits the unwrap-on-`Err` panic (modelled as
`none`) whenever the raw sample is `previous_count + 2^15` mod `2^16`. -/
theorem sample_unwrap_panics (c : Int) (p : Nat) (hp : p < 65536) :
    (QeiManager.mk c p).sample_unwrap ((p + 32768) % 65536) = none := by
  have hr : (p + 32768) % 65536 < 65536 := Nat.mod_lt _ (by norm_num)
  have hmid : ((p + 32768) % 65536 + 65536 - p) % 65536 = 32768 := by omega
  have herr := QeiManager.update_err_of_mid c p ((p + 32768) % 65536) hp hr hmid
  simp [QeiManager.sample_unwrap, herr]

/-- Witness for C10 at the fresh state. -/
theorem sample_unwrap_panics_witness :
    (QeiManager.mk 0 0).sample_unwrap ((0 + 32768) % 65536) = none :=
  sample_unwrap_panics 0 0 (by decide)
